import Mathlib

/-!
Shallow embedding of `src/app.py` (Excel/CSV → Review/Plan document generator).

Raw cell values are modelled by `Value` (Python `None`/NaN → `Value.blank`,
numbers → `Value.num` over `ℚ`, strings → `Value.vstr`).  Python string
operations are modelled character-exactly on the ASCII range that the
program's data exercises (column letters, store codes, headers, `%` strings);
`str.strip`, `str.upper`, `str.lower`, `re.sub` and `float()` parsing are
given as executable functions below.
-/

namespace App

/-- A raw scalar cell value: Python `None`/`NaN`, a number, or a string. -/
inductive Value where
  | blank : Value
  | num   : ℚ → Value
  | vstr  : String → Value
deriving DecidableEq, Repr

/-- `pd.isna`: true exactly on blank/NaN values. -/
def isna : Value → Bool
  | Value.blank => true
  | _ => false

/-- Python whitespace characters stripped by `str.strip()` (ASCII range). -/
def isSpaceCh (c : Char) : Bool :=
  c = ' ' || c = '\t' || c = '\n' || c = '\r' || c = '\x0b' || c = '\x0c'

/-- `str.strip()`: remove leading and trailing whitespace. -/
def stripChars (l : List Char) : List Char :=
  ((l.dropWhile isSpaceCh).reverse.dropWhile isSpaceCh).reverse

/-- One character of `str.upper()` (ASCII case map; other characters kept). -/
def upperChar (c : Char) : Char :=
  if 'a' ≤ c ∧ c ≤ 'z' then Char.ofNat (c.toNat - 32) else c

/-- One character of `str.lower()` (ASCII case map; other characters kept). -/
def lowerChar (c : Char) : Char :=
  if 'A' ≤ c ∧ c ≤ 'Z' then Char.ofNat (c.toNat + 32) else c

/-- `str.strip()` on `String`. -/
def stripStr (s : String) : String := String.mk (stripChars s.data)

/-- `str.upper()` on `String`. -/
def upperStr (s : String) : String := String.mk (s.data.map upperChar)

/-- Python `str(x)` as used on cell values (`str(None) = "None"`;
numbers shown via the rational literal — only blankness of the result
matters to the program points we verify). -/
def pyStr : Value → String
  | Value.blank  => "None"
  | Value.num q  => toString q
  | Value.vstr s => s

/-- `normkey` (app.py:48-50): `re.sub(r"[\s\-_\.]+", "", str(x).strip().lower())`.
Replacing every run of separators by the empty string deletes exactly the
separator characters, so it is modelled as a filter. -/
def isSep (c : Char) : Bool :=
  isSpaceCh c || c = '-' || c = '_' || c = '.'

def normkey (x : String) : String :=
  String.mk (((stripChars x.data).map lowerChar).filter (fun c => !(isSep c)))

/-- `'A' ≤ c ≤ 'Z'`, the character class kept by `re.sub(r"[^A-Z]", "", s)`. -/
def isAZ (c : Char) : Bool :=
  decide ('A' ≤ c) && decide (c ≤ 'Z')

/-- `letter_to_index` (app.py:68-83): strip + upper, keep only A–Z
(so `"B17"` becomes `"B"`), `None` when nothing remains, else base-26
fold with digits A=1..Z=26, minus 1 for a 0-based index. -/
def letter_to_index (letter : String) : Option Nat :=
  let s := (stripChars letter.data).map upperChar
  if s = [] then none
  else
    let s2 := s.filter isAZ
    if s2 = [] then none
    else some ((s2.foldl (fun idx c => idx * 26 + (c.toNat - 64)) 0) - 1)

/-- Digit run to `Nat` (for `float()` parsing). -/
def digitsToNat (l : List Char) : Nat :=
  l.foldl (fun n c => n * 10 + (c.toNat - 48)) 0

/-- Exponent suffix of a Python float literal: empty (exponent 0), or
`e`/`E`, optional sign, digits. `none` on any other trailing text. -/
def parseExpPart (rest : List Char) : Option ℤ :=
  match rest with
  | [] => some 0
  | 'e' :: t => parseExpDigits t
  | 'E' :: t => parseExpDigits t
  | _ => none
where
  parseExpDigits (t : List Char) : Option ℤ :=
    let (eneg, t1) : Bool × List Char :=
      match t with
      | '+' :: u => (false, u)
      | '-' :: u => (true, u)
      | _ => (false, t)
    let ed := t1.takeWhile Char.isDigit
    if ed = [] ∨ t1.dropWhile Char.isDigit ≠ [] then none
    else some (if eneg then Int.negOfNat (digitsToNat ed) else Int.ofNat (digitsToNat ed))

/-- A signed rational from integer parts (`Rat.mul`/`Rat.div` from
Batteries are `irreducible`, so rationals are assembled with `mkRat`). -/
def qOfParts (neg : Bool) (n d : Nat) : ℚ :=
  if neg then mkRat (Int.negOfNat n) d else mkRat (Int.ofNat n) d

/-- Python `float(s)` on decimal/scientific literals: optional sign,
digits with optional `.`-fraction (at least one digit overall), optional
exponent; anything else fails. The value is
`± (ip·10^|fp| + fp) · 10^e / 10^|fp|`. -/
def parseFloat (l : List Char) : Option ℚ :=
  let (neg, l1) : Bool × List Char :=
    match l with
    | '+' :: t => (false, t)
    | '-' :: t => (true, t)
    | _ => (false, l)
  let ip := l1.takeWhile Char.isDigit
  let r1 := l1.dropWhile Char.isDigit
  let (fp, r2) : List Char × List Char :=
    match r1 with
    | '.' :: r2 => (r2.takeWhile Char.isDigit, r2.dropWhile Char.isDigit)
    | _ => ([], r1)
  if ip = [] ∧ fp = [] then none
  else
    match parseExpPart r2 with
    | none => none
    | some e =>
        let mant := digitsToNat ip * 10 ^ fp.length + digitsToNat fp
        match e with
        | Int.ofNat k => some (qOfParts neg (mant * 10 ^ k) (10 ^ fp.length))
        | Int.negSucc k => some (qOfParts neg mant (10 ^ fp.length * 10 ^ (k + 1)))

/-- `coerce_number` (app.py:85-97): `None`→`None`; numbers pass through;
strings are stripped, every `%` removed, empty→`None`, else `float()`
(failure → `None`). -/
def coerce_number : Value → Option ℚ
  | Value.blank => none
  | Value.num q => some q
  | Value.vstr s =>
      let s1 := (stripChars s.data).filter (fun c => c != '%')
      if s1 = [] then none else parseFloat s1

/-- Python `round(x)`: round half to even, to an integer.  With
`f = ⌊q⌋` the fractional part is `(q.num - f·q.den)/q.den`; it is
compared against `1/2` by cross-multiplication. -/
def roundHalfEven (q : ℚ) : ℤ :=
  let f := Int.fdiv q.num (q.den : ℤ)
  let num2 := (q.num - f * (q.den : ℤ)) * 2
  if num2 < (q.den : ℤ) then f
  else if (q.den : ℤ) < num2 then f + 1
  else if Int.emod f 2 = 0 then f else f + 1

/-- `as_percent` (app.py:99-107): coercion failure → `""`;
multiply by 100 exactly when `x <= 1.0` (`mkRat (x.num * 100) x.den`
is `x * 100`); `round` and append `%`. -/
def as_percent (val : Value) : String :=
  match coerce_number val with
  | none => ""
  | some x =>
      let y := if x ≤ 1 then mkRat (x.num * 100) x.den else x
      toString (roundHalfEven y) ++ "%"

/-! ### Placeholder engine (`replace_placeholders`, app.py:30-46) -/

/-- Identifier characters of the token pattern `[[([A-Za-z0-9_]+)]]`. -/
def isIdentChar (c : Char) : Bool :=
  c.isAlpha || c.isDigit || c = '_'

/-- Try to match `\[\[([A-Za-z0-9_]+)\]\]` at the head of the text;
on success return the identifier and the remaining text.  (The regex
is deterministic here: identifier characters never include `]`, so the
greedy run is the only candidate.) -/
def matchTok : List Char → Option (List Char × List Char)
  | '[' :: '[' :: rest =>
      let ident := rest.takeWhile isIdentChar
      match rest.dropWhile isIdentChar with
      | ']' :: ']' :: r2 => if ident = [] then none else some (ident, r2)
      | _ => none
  | _ => none

/-- `re.sub` scan: at each position try the token pattern; on a match emit
the replacement and continue after it, else emit one character and move
on.  The fuel argument makes the recursion structural; fuel = input
length is exact, since each step consumes at least one character. -/
def tokenSubF (look : List Char → List Char) : Nat → List Char → List Char
  | 0, l => l
  | _ + 1, [] => []
  | fuel + 1, c :: cs =>
      match matchTok (c :: cs) with
      | some (ident, rest) => look ident ++ tokenSubF look fuel rest
      | none => c :: tokenSubF look fuel cs

/-- Does the text contain a token match at any position? -/
def hasTok : List Char → Bool
  | [] => false
  | c :: cs => (matchTok (c :: cs)).isSome || hasTok cs

/-- The field map: Python dict from identifier to value (`none` is
Python `None`; other values shown as strings). -/
abbrev FieldMap := List (String × Option String)

/-- `key_to_val` (app.py:35): missing key or `None` value → `""`,
else the value's string form. -/
def lookupVal (m : FieldMap) (k : String) : String :=
  match m.lookup k with
  | some (some v) => v
  | _ => ""

/-- `subfun` (app.py:34-36): substitute every token of one run's text. -/
def subfun (m : FieldMap) (s : String) : String :=
  String.mk (tokenSubF (fun id => (lookupVal m (String.mk id)).data) s.data.length s.data)

/-- A paragraph is its list of runs (each run is its text). -/
abbrev Para := List String
/-- A table cell holds paragraphs; a table row holds cells. -/
abbrev Cell := List Para
abbrev TableRow := List Cell
abbrev DTable := List TableRow

/-- The text-bearing tree of a `.docx` document: body paragraphs and
tables (rows of cells of paragraphs), as walked by the code. -/
structure Docx where
  paragraphs : List Para
  tables : List DTable
deriving DecidableEq, Repr

/-- Substitution over one paragraph: each run rewritten independently
(`r.text = subfun(r.text)`). -/
def replacePara (m : FieldMap) (p : Para) : Para :=
  p.map (subfun m)

/-- `replace_placeholders` (app.py:30-46): rewrite every run of every
body paragraph and of every paragraph of every table cell. -/
def replace_placeholders (m : FieldMap) (d : Docx) : Docx :=
  { paragraphs := d.paragraphs.map (replacePara m)
    tables := d.tables.map (fun t => t.map (fun row => row.map (fun cell => cell.map (replacePara m)))) }

/-- No run anywhere in the document contains a token match. -/
def noTokDoc (d : Docx) : Bool :=
  d.paragraphs.all (fun p => p.all (fun r => !(hasTok r.data))) &&
    d.tables.all (fun t => t.all (fun row => row.all (fun cell =>
      cell.all (fun p => p.all (fun r => !(hasTok r.data))))))

/-! ### Table access (`value_from_letter_row`, app.py:128-138) -/

/-- The loaded DataFrame: a column count and the rows' cells. -/
structure Table where
  ncols : Nat
  rows : List (List Value)
deriving Repr

/-- `value_from_letter_row` (app.py:128-138): unresolved letter → `""`;
row index out of range → `""`; column index at or beyond the column
count → `""`; NaN cell → `""`; else the cell value.  (The code also
checks `ci < 0`, which cannot happen: the base-26 fold of a nonempty
letter string is at least 1 before the final minus 1.) -/
def value_from_letter_row (df : Table) (rowIdx : ℤ) (letter : String) : Value :=
  match letter_to_index letter with
  | none => Value.vstr ""
  | some ci =>
      if rowIdx < 0 ∨ (df.rows.length : ℤ) ≤ rowIdx then Value.vstr ""
      else if df.ncols ≤ ci then Value.vstr ""
      else
        let val := (df.rows.getD rowIdx.toNat []).getD ci Value.blank
        if isna val then Value.vstr "" else val

/-! ### Batch loop (`__main__` row loop, app.py:314-416) -/

/-- The store cell as the loop reads it:
`"" if pd.isna(store_val) else str(store_val).strip().upper()`. -/
def storeOf (v : Value) : String :=
  if isna v then "" else upperStr (stripStr (pyStr v))

/-- One input row, as the loop sees it: the resolved store cell value,
and the outcome of the document build/serialization for that row (the
`python-docx` work inside the `try` block, abstracted as data: `ok` or
the exception's message). -/
structure XRow where
  storeVal : Value
  outcome : Except String Unit
deriving Repr

/-- The warning emitted on a per-row exception (app.py:414). -/
def warnMsg (n : Nat) (e : String) : String :=
  "⚠️ Σφάλμα στη γραμμή Excel " ++ toString n ++ ": " ++ e

/-- Result of the loop: archive entry names (in insertion order), the
warning messages for failed rows, and the `built` counter. -/
structure BatchResult where
  archive : List String
  failures : List String
  built : Nat
deriving DecidableEq, Repr

/-- The row loop (app.py:314-416), iterating with 0-based index `i0`:
rows before `data_start_row_1based - 1` are skipped; in test mode the
loop breaks once `i0 - (data_start_row_1based - 1) >= 50`; a blank
store skips the row; otherwise the document build either adds
`store ++ "_ReviewSep_PlanOct.docx"` to the archive or records a
warning, and iteration continues. -/
def rowLoop (dataStart1 : Nat) (testMode : Bool) : Nat → List XRow → BatchResult
  | _, [] => ⟨[], [], 0⟩
  | i0, r :: rs =>
      if i0 < dataStart1 - 1 then rowLoop dataStart1 testMode (i0 + 1) rs
      else if testMode ∧ 50 ≤ i0 - (dataStart1 - 1) then ⟨[], [], 0⟩
      else
        let store := storeOf r.storeVal
        if store = "" then rowLoop dataStart1 testMode (i0 + 1) rs
        else
          match r.outcome with
          | Except.ok _ =>
              let res := rowLoop dataStart1 testMode (i0 + 1) rs
              ⟨(store ++ "_ReviewSep_PlanOct.docx") :: res.archive, res.failures, res.built + 1⟩
          | Except.error e =>
              let res := rowLoop dataStart1 testMode (i0 + 1) rs
              ⟨res.archive, warnMsg (i0 + 1) e :: res.failures, res.built⟩

/-- Rows paired with their 0-based loop index, starting at `i`. -/
def enumFrom (i : Nat) : List XRow → List (Nat × XRow)
  | [] => []
  | r :: rs => (i, r) :: enumFrom (i + 1) rs

/-- The archive entry a row yields (`none` for skipped or failed rows). -/
def okEntry (p : Nat × XRow) : Option String :=
  if storeOf p.2.storeVal = "" then none
  else
    match p.2.outcome with
    | Except.ok _ => some (storeOf p.2.storeVal ++ "_ReviewSep_PlanOct.docx")
    | Except.error _ => none

/-- The warning a row yields (`none` for skipped or successful rows). -/
def errEntry (p : Nat × XRow) : Option String :=
  if storeOf p.2.storeVal = "" then none
  else
    match p.2.outcome with
    | Except.ok _ => none
    | Except.error e => some (warnMsg (p.1 + 1) e)

/-- Rows the batch actually attempts: nonblank store. -/
def countAttemptable (rs : List XRow) : Nat :=
  (rs.filter (fun r => !(storeOf r.storeVal = ""))).length

/-- Does `needle` occur as a contiguous substring of `hay`? -/
def strContains (hay needle : List Char) : Bool :=
  hay.tails.any (fun suf => needle.isPrefixOf suf)

/-! ### Percent fields at the pipeline level (app.py:371-397) -/

/-- Python truthiness of the raw value in `as_percent(v) if v != "" else ""`:
`v != ""` is false exactly for the empty string. -/
def pyNeEmptyStr : Value → Bool
  | Value.vstr s => !(s = "")
  | _ => true

/-- The per-row mapping for a percent-kind field
(`plan_vs_target`, `voice_vs_target`, `fixed_vs_target`):
`fmt = as_percent(v) if v != "" else ""` followed by `fmt or v`. -/
def percentField (v : Value) : Value :=
  let fmt := if pyNeEmptyStr v then as_percent v else ""
  if fmt = "" then v else Value.vstr fmt

/-- Modelled from the spec: the conversion of a 0-based column index to
its spreadsheet letter string (`0→"A"`, `25→"Z"`, `26→"AA"`), the
inverse direction of `letter_to_index`, which the source does not
contain.  Covers the single- and double-letter range `i < 26·27`. -/
def indexToLetter (i : Nat) : String :=
  if i < 26 then String.mk [Char.ofNat (65 + i)]
  else String.mk [Char.ofNat (65 + (i - 26) / 26), Char.ofNat (65 + (i - 26) % 26)]

/-! ## Helper lemmas -/

theorem tokenSubF_of_not_hasTok (look : List Char → List Char) :
    ∀ (fuel : Nat) (l : List Char), hasTok l = false → tokenSubF look fuel l = l := by
  intro fuel
  induction fuel with
  | zero => intro l _; rfl
  | succ n ih =>
      intro l h
      cases l with
      | nil => rfl
      | cons c cs =>
          simp only [hasTok, Bool.or_eq_false_iff] at h
          obtain ⟨h1, h2⟩ := h
          have hm : matchTok (c :: cs) = none := by
            cases hm : matchTok (c :: cs) with
            | none => rfl
            | some v => rw [hm] at h1; simp at h1
          simp only [tokenSubF, hm]
          rw [ih cs h2]

theorem subfun_of_not_hasTok (m : FieldMap) (s : String) (h : hasTok s.data = false) :
    subfun m s = s := by
  cases s with
  | mk data =>
      simp only [subfun]
      rw [tokenSubF_of_not_hasTok _ _ _ h]

theorem replacePara_of_not_hasTok (m : FieldMap) :
    ∀ (p : Para), (∀ r ∈ p, hasTok r.data = false) → replacePara m p = p := by
  intro p hp
  induction p with
  | nil => rfl
  | cons r rest ih =>
      simp only [replacePara, List.map_cons]
      rw [subfun_of_not_hasTok m r (hp r (List.mem_cons_self r rest))]
      have := ih (fun x hx => hp x (List.mem_cons_of_mem r hx))
      simp only [replacePara] at this
      rw [this]

theorem replace_placeholders_of_noTokDoc (m : FieldMap) (d : Docx)
    (h : noTokDoc d = true) : replace_placeholders m d = d := by
  simp only [noTokDoc, Bool.and_eq_true, List.all_eq_true] at h
  obtain ⟨hp, ht⟩ := h
  cases d with
  | mk paras tabs =>
      simp only [replace_placeholders]
      congr 1
      · apply List.map_congr_left ?_ |>.trans (List.map_id _)
        intro p hpmem
        have := hp p hpmem
        simp only [List.all_eq_true, Bool.not_eq_true'] at this
        exact replacePara_of_not_hasTok m p this
      · apply List.map_congr_left ?_ |>.trans (List.map_id _)
        intro t htmem
        have ht' := ht t htmem
        apply List.map_congr_left ?_ |>.trans (List.map_id _)
        intro row hrow
        have hrow' := ht' row hrow
        simp only [List.all_eq_true] at hrow'
        apply List.map_congr_left ?_ |>.trans (List.map_id _)
        intro cell hcell
        have hcell' := hrow' cell hcell
        simp only [List.all_eq_true] at hcell'
        apply List.map_congr_left ?_ |>.trans (List.map_id _)
        intro p hpmem
        have := hcell' p hpmem
        simp only [List.all_eq_true, Bool.not_eq_true'] at this
        exact replacePara_of_not_hasTok m p this

/-! ## Claims C1 and C9 (placeholder engine) -/

/-- Claim C1, counterexample: with the `[[store]]` token split into the
three runs `"[[sto"`, `"re"`, `"]]"` and `store ↦ "X"` in the field map,
`replace_placeholders` leaves the document unchanged, and the node's
concatenated text still contains the token — so a token that crosses a
run boundary IS left wholly unsubstituted, refuting the claim. -/
theorem claim_C1_counterexample :
    replace_placeholders [("store", some "X")] ⟨[["[[sto", "re", "]]"]], []⟩ =
      (⟨[["[[sto", "re", "]]"]], []⟩ : Docx) ∧
    hasTok ("[[sto" ++ "re" ++ "]]").data = true ∧
    lookupVal [("store", some "X")] "store" = "X" := by
  refine ⟨?_, by decide, by decide⟩
  decide

/-- Claim C1, amended: `replace_placeholders` rewrites each run's text
independently; a node none of whose runs contains a complete `[[id]]`
token — in particular one whose token straddles run boundaries — is left
entirely unchanged by substitution. -/
theorem claim_C1_amended (m : FieldMap) (p : Para)
    (h : ∀ r ∈ p, hasTok r.data = false) : replacePara m p = p :=
  replacePara_of_not_hasTok m p h

/-- Witness for C1: the split-token paragraph satisfies the hypothesis
(no single run holds a complete token) and is left unchanged. -/
theorem claim_C1_witness :
    (∀ r ∈ (["[[sto", "re", "]]"] : Para), hasTok r.data = false) ∧
    replacePara [("store", some "X")] ["[[sto", "re", "]]"] = ["[[sto", "re", "]]"] :=
  ⟨by decide, claim_C1_amended [("store", some "X")] ["[[sto", "re", "]]"] (by decide)⟩

/-- Claim C9, counterexample: substitution can create a fresh token, so a
second pass is not always a no-op.  With the single run `"[[x[[a]]y]]"`
and field map `a ↦ ""` (the value contains no `[[...]]` syntax), one pass
yields `"[[xy]]"`, and a second pass with the empty field map erases it. -/
theorem claim_C9_counterexample :
    replace_placeholders [("a", some "")] ⟨[["[[x[[a]]y]]"]], []⟩ =
      (⟨[["[[xy]]"]], []⟩ : Docx) ∧
    replace_placeholders []
        (replace_placeholders [("a", some "")] ⟨[["[[x[[a]]y]]"]], []⟩) ≠
      replace_placeholders [("a", some "")] ⟨[["[[x[[a]]y]]"]], []⟩ := by
  constructor
  · decide
  · decide

/-- Claim C9, amended: idempotence holds exactly when the once-rendered
document's runs no longer contain any token occurrence (substitution may
otherwise create fresh tokens): if no run of `replace_placeholders m d`
matches the token pattern, a second pass with any field map — the same
or an empty one — leaves the document unchanged. -/
theorem claim_C9_amended (m m2 : FieldMap) (d : Docx)
    (h : noTokDoc (replace_placeholders m d) = true) :
    replace_placeholders m2 (replace_placeholders m d) = replace_placeholders m d :=
  replace_placeholders_of_noTokDoc m2 (replace_placeholders m d) h

/-- Witness for C9: a document whose single token is fully substituted in
one pass; the second pass (empty field map) is a no-op. -/
theorem claim_C9_witness :
    noTokDoc (replace_placeholders [("store", some "X")] ⟨[["Hello [[store]]"]], []⟩) = true ∧
    replace_placeholders []
        (replace_placeholders [("store", some "X")] ⟨[["Hello [[store]]"]], []⟩) =
      replace_placeholders [("store", some "X")] ⟨[["Hello [[store]]"]], []⟩ :=
  ⟨by decide, claim_C9_amended [("store", some "X")] [] ⟨[["Hello [[store]]"]], []⟩ (by decide)⟩

/-! ## Claims C2, C3 and C10 (value normalizer) -/

/-- Claim C2: the code contradicts the claim (and its own docstring
`1.22 -> '122%'`): `as_percent` multiplies by 100 only when the coerced
value is `≤ 1.0`, not when its absolute value is below 10, so
`as_percent(1.22) = "1%"`, not `"122%"`.  The other quoted examples do
hold, which this theorem also records. -/
theorem claim_C2_code_eval :
    as_percent (Value.num (mkRat 61 50)) = "1%" ∧
    as_percent (Value.num (mkRat 17 20)) = "85%" ∧
    as_percent (Value.num 122) = "122%" ∧
    as_percent (Value.vstr "87%") = "87%" := by
  refine ⟨by decide, by decide, by decide, by decide⟩

/-- Claim C3, counterexample: on a value whose numeric coercion fails,
`as_percent` returns the empty string, not the original string:
`as_percent("abc") = "" ≠ "abc"`. -/
theorem claim_C3_counterexample :
    as_percent (Value.vstr "abc") = "" ∧ as_percent (Value.vstr "abc") ≠ "abc" := by
  refine ⟨by decide, by decide⟩

/-- Claim C3, amended: on coercion failure `as_percent` returns the empty
string (it is a total function, so it never raises); the original value
is recovered one level up, where the row mapping computes `fmt or raw`:
`percentField v = v` whenever coercion fails. -/
theorem claim_C3_amended (v : Value) (h : coerce_number v = none) :
    as_percent v = "" ∧ percentField v = v := by
  have ha : as_percent v = "" := by
    simp only [as_percent, h]
  refine ⟨ha, ?_⟩
  simp only [percentField, ha]
  cases hb : pyNeEmptyStr v <;> simp

/-- Witness for C3: the string `"abc"` fails coercion; `as_percent`
yields `""` and the pipeline-level field keeps `"abc"`. -/
theorem claim_C3_witness :
    coerce_number (Value.vstr "abc") = none ∧
    as_percent (Value.vstr "abc") = "" ∧
    percentField (Value.vstr "abc") = Value.vstr "abc" :=
  ⟨by decide, claim_C3_amended (Value.vstr "abc") (by decide)⟩

/-- Claim C10: in the per-row mapping, a percent-kind field uses
`as_percent` exactly when that result is nonempty, and otherwise falls
back to the raw value (the `v != ""` guard in
`as_percent(v) if v != "" else ""` is subsumed: `as_percent("") = ""`),
so a non-numeric raw value reaches the document unchanged. -/
theorem claim_C10 (v : Value) :
    percentField v =
      if as_percent v = "" then v else Value.vstr (as_percent v) := by
  cases v with
  | blank => simp [percentField, pyNeEmptyStr]
  | num q => simp [percentField, pyNeEmptyStr]
  | vstr s =>
      by_cases hs : s = ""
      · subst hs
        simp [percentField, pyNeEmptyStr]
        decide
      · simp [percentField, pyNeEmptyStr, hs]

/-! ## Claims C4 and C5 (batch loop) -/

/-- Claim C4, counterexample: a failed row's record is the warning string
naming the 1-based Excel row number — the store identifier `"AAA01"` does
not occur in it, refuting "recorded ... with its identifier". -/
theorem claim_C4_counterexample :
    (rowLoop 1 false 0 [⟨Value.vstr "AAA01", Except.error "boom"⟩]).failures =
      ["⚠️ Σφάλμα στη γραμμή Excel 1: boom"] ∧
    (rowLoop 1 false 0 [⟨Value.vstr "AAA01", Except.error "boom"⟩]).archive = [] ∧
    strContains ("⚠️ Σφάλμα στη γραμμή Excel 1: boom").data ("AAA01").data = false := by
  refine ⟨by decide, by decide, by decide⟩

/-- Claim C4, amended: the loop tolerates bad rows without aborting —
its result is row-local: a blank-store row contributes neither an archive
entry nor a failure record; a row whose document build raises contributes
exactly one warning, naming the row's 1-based Excel row number (not the
store identifier) and the reason, and no archive entry; every other row
is still processed (archive, failure list and `built` counter are the
`filterMap` of the per-row outcomes over all rows in order). -/
theorem claim_C4_amended (ds : Nat) :
    ∀ (rs : List XRow) (i0 : Nat), ds - 1 ≤ i0 →
      rowLoop ds false i0 rs =
        ⟨(enumFrom i0 rs).filterMap okEntry, (enumFrom i0 rs).filterMap errEntry,
          ((enumFrom i0 rs).filterMap okEntry).length⟩ := by
  intro rs
  induction rs with
  | nil => intro i0 _; rfl
  | cons r rest ih =>
      intro i0 h
      have hlt : ¬ i0 < ds - 1 := Nat.not_lt.mpr h
      have hnext : ds - 1 ≤ i0 + 1 := Nat.le_succ_of_le h
      simp only [rowLoop, enumFrom, List.filterMap_cons]
      rw [if_neg hlt, if_neg (by simp)]
      by_cases hs : storeOf r.storeVal = ""
      · simp only [hs, if_pos rfl, okEntry, errEntry, if_pos hs]
        exact ih i0.succ hnext
      · cases ho : r.outcome with
        | ok u =>
            simp only [if_neg hs, ho, okEntry, errEntry, if_neg hs, ih i0.succ hnext,
              List.length_cons]
        | error e =>
            simp only [if_neg hs, ho, okEntry, errEntry, if_neg hs, ih i0.succ hnext]

/-- Witness for C4: five rows — two good, one blank store, one failing,
one more good — yield three archive entries, one warning with the row
number and the reason, `built = 3`. -/
theorem claim_C4_witness :
    rowLoop 1 false 0
        [⟨Value.vstr "S01", Except.ok ()⟩, ⟨Value.vstr "S02", Except.ok ()⟩,
         ⟨Value.vstr "", Except.ok ()⟩, ⟨Value.vstr "S04", Except.error "template missing"⟩,
         ⟨Value.vstr "S05", Except.ok ()⟩] =
      ⟨["S01_ReviewSep_PlanOct.docx", "S02_ReviewSep_PlanOct.docx", "S05_ReviewSep_PlanOct.docx"],
        ["⚠️ Σφάλμα στη γραμμή Excel 4: template missing"], 3⟩ := by
  rw [claim_C4_amended 1 _ 0 (by decide)]
  decide

/-- Claim C5, counterexample: the test-mode cap counts input rows, not
attempted rows.  With 52 rows whose first has a blank store and the other
51 are attemptable, the loop builds only 49 documents, not
`min 50 51 = 50` — a skipped blank row does count against the cap. -/
theorem claim_C5_counterexample :
    (rowLoop 1 true 0
        (⟨Value.vstr "", Except.ok ()⟩ ::
          List.replicate 51 ⟨Value.vstr "S01", Except.ok ()⟩)).built = 49 ∧
    countAttemptable
        (⟨Value.vstr "", Except.ok ()⟩ ::
          List.replicate 51 ⟨Value.vstr "S01", Except.ok ()⟩) = 51 ∧
    (49 : Nat) ≠ min 50 51 := by
  refine ⟨by decide, by decide, by decide⟩

/-- Claim C5, amended: the cap truncates by input position, blank-skipped
rows included: the loop in test mode behaves exactly like the uncapped
loop run on the first `data_start + 50` input rows (indices below
`(dataStart1 - 1) + 50`), so fewer than 50 rows may be attempted when
blank rows occur among them. -/
theorem claim_C5_amended (ds : Nat) :
    ∀ (rs : List XRow) (i0 : Nat),
      rowLoop ds true i0 rs = rowLoop ds false i0 (rs.take (ds - 1 + 50 - i0)) := by
  intro rs
  induction rs with
  | nil => intro i0; rw [List.take_nil]; simp [rowLoop]
  | cons r rest ih =>
      intro i0
      have hfneg : ¬((false : Bool) = true ∧ 50 ≤ i0 - (ds - 1)) :=
        fun hc => Bool.noConfusion hc.1
      by_cases h1 : i0 < ds - 1
      · have hk : ds - 1 + 50 - i0 = (ds - 1 + 50 - (i0 + 1)) + 1 := by omega
        rw [hk, List.take_succ_cons]
        show (if i0 < ds - 1 then rowLoop ds true (i0 + 1) rest else _) =
          (if i0 < ds - 1 then rowLoop ds false (i0 + 1) (rest.take (ds - 1 + 50 - (i0 + 1))) else _)
        rw [if_pos h1, if_pos h1, ih (i0 + 1)]
      · by_cases h2 : 50 ≤ i0 - (ds - 1)
        · have hk : ds - 1 + 50 - i0 = 0 := by omega
          rw [hk, List.take_zero]
          show (if i0 < ds - 1 then _ else
              if (true : Bool) = true ∧ 50 ≤ i0 - (ds - 1) then
                (⟨[], [], 0⟩ : BatchResult) else _) = rowLoop ds false i0 []
          rw [if_neg h1, if_pos ⟨rfl, h2⟩]
          rfl
        · have hk : ds - 1 + 50 - i0 = (ds - 1 + 50 - (i0 + 1)) + 1 := by omega
          have htneg : ¬(True ∧ 50 ≤ i0 - (ds - 1)) := fun hc => h2 hc.2
          rw [hk, List.take_succ_cons]
          show rowLoop ds true i0 (r :: rest) =
            rowLoop ds false i0 (r :: rest.take (ds - 1 + 50 - (i0 + 1)))
          simp only [rowLoop]
          rw [if_neg h1, if_neg h1, if_neg htneg, if_neg hfneg]
          by_cases hs : storeOf r.storeVal = ""
          · rw [if_pos hs, if_pos hs, ih (i0 + 1)]
          · rw [if_neg hs, if_neg hs]
            cases ho : r.outcome with
            | ok u => rw [ih (i0 + 1)]
            | error e => rw [ih (i0 + 1)]

/-! ## Claims C6 and C7 (column letters) -/

theorem mem_of_mem_stripChars {c : Char} {l : List Char} (h : c ∈ stripChars l) : c ∈ l := by
  unfold stripChars at h
  rw [List.mem_reverse] at h
  have h2 : c ∈ (l.dropWhile isSpaceCh).reverse := (List.dropWhile_sublist _).subset h
  rw [List.mem_reverse] at h2
  exact (List.dropWhile_sublist _).subset h2

/-- Claim C6, counterexample: a letter string containing characters
outside A–Z does not generally read as unresolved — the code first
strips every non-A–Z character, so `"B17"` resolves to column 1 rather
than to `none`. -/
theorem claim_C6_counterexample :
    letter_to_index "B17" = some 1 ∧ letter_to_index "B17" ≠ none := by
  refine ⟨by decide, by decide⟩

/-- Claim C6, amended: non-A–Z characters are deleted (after upper-casing),
not rejected: a reference like `"B17"` resolves by its letters alone;
only a string with no A–Z letter at all is unresolved; and a resolved
index at or beyond the table's column count makes
`value_from_letter_row` yield the empty value. -/
theorem claim_C6_amended :
    (∀ s : String, ((s.data.map upperChar).all fun c => !(isAZ c)) = true →
      letter_to_index s = none) ∧
    letter_to_index "B17" = some 1 ∧
    (∀ (df : Table) (r : ℤ) (s : String) (ci : Nat),
      letter_to_index s = some ci → df.ncols ≤ ci →
      value_from_letter_row df r s = Value.vstr "") := by
  refine ⟨?_, by decide, ?_⟩
  · intro s hall
    simp only [List.all_eq_true, Bool.not_eq_true'] at hall
    simp only [letter_to_index]
    by_cases hnil : (stripChars s.data).map upperChar = []
    · rw [if_pos hnil]
    · rw [if_neg hnil]
      have hfilter : ((stripChars s.data).map upperChar).filter isAZ = [] := by
        apply List.filter_eq_nil_iff.mpr
        intro a ha
        rw [List.mem_map] at ha
        obtain ⟨c0, hc0, rfl⟩ := ha
        have : upperChar c0 ∈ s.data.map upperChar :=
          List.mem_map.mpr ⟨c0, mem_of_mem_stripChars hc0, rfl⟩
        rw [hall _ this]
        exact Bool.false_ne_true
      rw [if_pos hfilter]
  · intro df r s ci hres hge
    simp only [value_from_letter_row, hres]
    by_cases hr : r < 0 ∨ (df.rows.length : ℤ) ≤ r
    · rw [if_pos hr]
    · rw [if_neg hr, if_pos hge]

/-- Witness for C6: the all-digit string `"17"` is unresolved, and the
letter `"B"` (column 1) is out of range for a one-column table. -/
theorem claim_C6_witness :
    letter_to_index "17" = none ∧
    value_from_letter_row ⟨1, [[Value.vstr "x"]]⟩ 0 "B" = Value.vstr "" :=
  ⟨claim_C6_amended.1 "17" (by decide),
    claim_C6_amended.2.2 ⟨1, [[Value.vstr "x"]]⟩ 0 "B" 1 (by decide) (by decide)⟩

set_option maxRecDepth 100000 in
/-- Claim C7: letter-to-index conversion is base-26 with 1-origin digits
(the code folds `idx*26 + (ord(ch)-ord('A')+1)` and subtracts 1), and for
every index below `26·27` the spreadsheet letter string round-trips
through `letter_to_index`; in particular `"A"→0`, `"Z"→25`, `"AA"→26`,
`"AB"→27`. -/
theorem claim_C7 :
    (∀ i : Nat, i < 702 → letter_to_index (indexToLetter i) = some i) ∧
    letter_to_index "A" = some 0 ∧ letter_to_index "Z" = some 25 ∧
    letter_to_index "AA" = some 26 ∧ letter_to_index "AB" = some 27 := by
  constructor
  · decide
  · refine ⟨by decide, by decide, by decide, by decide⟩

/-- Witness for C7: the round trip evaluated at index 27 (`"AB"`). -/
theorem claim_C7_witness :
    27 < 702 ∧ letter_to_index (indexToLetter 27) = some 27 :=
  ⟨by decide, claim_C7.1 27 (by decide)⟩

/-! ## Claim C8 (header normalization) -/

theorem lowerChar_of_isSpaceCh {c : Char} (h : isSpaceCh c = true) : lowerChar c = c := by
  simp only [isSpaceCh, Bool.or_eq_true, decide_eq_true_eq] at h
  rcases h with ⟨⟨⟨⟨h | h⟩ | h⟩ | h⟩ | h⟩ | h <;> subst h <;> decide

theorem isSep_of_isSpaceCh {c : Char} (h : isSpaceCh c = true) : isSep c = true := by
  simp only [isSep, h, Bool.true_or]

theorem filter_map_dropWhile_space (l : List Char) :
    ((l.dropWhile isSpaceCh).map lowerChar).filter (fun c => !(isSep c)) =
      (l.map lowerChar).filter (fun c => !(isSep c)) := by
  induction l with
  | nil => rfl
  | cons c cs ih =>
      cases hsp : isSpaceCh c with
      | false => simp only [List.dropWhile_cons, hsp, Bool.false_eq_true, if_false]
      | true =>
          simp only [List.dropWhile_cons, hsp, if_true, List.map_cons, List.filter_cons]
          rw [lowerChar_of_isSpaceCh hsp, isSep_of_isSpaceCh hsp]
          simpa using ih

/-- `normkey` with the leading/trailing strip cancelled: stripped
characters are whitespace, which the separator filter removes anyway. -/
theorem normkey_eq_filter (s : String) :
    normkey s = String.mk ((s.data.map lowerChar).filter (fun c => !(isSep c))) := by
  cases s with
  | mk l =>
      simp only [normkey, stripChars]
      congr 1
      rw [List.map_reverse, List.filter_reverse, filter_map_dropWhile_space,
        List.map_reverse, List.filter_reverse, List.reverse_reverse,
        filter_map_dropWhile_space]

/-- Claim C8, counterexample: `normkey` does not strip diacritics — there
is no Unicode decomposition in the code — so `"café"` and `"cafe"`, which
differ only in a diacritic, do not normalize identically. -/
theorem claim_C8_counterexample : normkey "café" ≠ normkey "cafe" := by
  decide

/-- Claim C8, amended: `normkey` lower-cases and deletes every run of
whitespace, `-`, `_` and `.` (the leading strip is subsumed by the
deletion), but performs no diacritic stripping: any two strings that
agree after lower-casing and separator deletion — e.g. strings differing
only in case or separator runs, such as "Shop_Code", "Shop Code" and
"ShopCode" — normalize identically, while strings differing in a
diacritic do not. -/
theorem claim_C8_amended (s t : String)
    (h : (s.data.map lowerChar).filter (fun c => !(isSep c)) =
      (t.data.map lowerChar).filter (fun c => !(isSep c))) :
    normkey s = normkey t := by
  rw [normkey_eq_filter, normkey_eq_filter, h]

/-- Witness for C8: the three spellings of the shop-code header
normalize to the same key. -/
theorem claim_C8_witness :
    normkey "Shop_Code" = normkey "Shop Code" ∧ normkey "Shop Code" = normkey "ShopCode" :=
  ⟨claim_C8_amended "Shop_Code" "Shop Code" (by decide),
    claim_C8_amended "Shop Code" "ShopCode" (by decide)⟩

end App
